import Mathlib

/-!
Verification of the ECHONET Lite probe utility (`src/raw_echonet.py`).

The development shallowly embeds the three components of the program:

* the frame codec: `create_echonet_packet` (encode) and
  `parse_echonet_response` (decode);
* the property interpreter `format_property_value`;
* the prober `probe_echonet_device` driving the catalogue sweep, modelled
  over an abstract network oracle supplying the datagram (if any) received
  for each attempt.

Bytes are modelled as `Nat` (well-formedness hypotheses record the `< 256`
range where it matters); a Python byte string is a `List Nat`; fallible
parsing returns `Option`; the `try`/`except` block of the interpreter is an
`Except String String` computation together with its handler.
-/

namespace Echonet

/-- EPC code for operational status (from the source constants). -/
def EPC_OPERATIONAL_STATUS : Nat := 0x80

/-- EPC code for installation location. -/
def EPC_INSTALLATION_LOCATION : Nat := 0x81

/-- EPC code for manufacturer code. -/
def EPC_MANUFACTURER_CODE : Nat := 0x8A

/-- EPC code for power consumption. -/
def EPC_POWER_CONSUMPTION : Nat := 0x84

/-- EPC code for cumulative power. -/
def EPC_CUMULATIVE_POWER : Nat := 0x85

/-- EPC code for instantaneous power. -/
def EPC_INSTANTANEOUS_POWER : Nat := 0xE0

/-- EPC code for battery charge/discharge power. -/
def EPC_BATTERY_CHARGE_DISCHARGE : Nat := 0xD3

/-- A property record.  The Python source handles a property as a byte
sequence `prop` whose code is `prop[0]`, declared payload length `prop[1]`
and payload bytes `prop[2:]`; decoding likewise produces `(epc, pdc, edt)`
triples. -/
structure EProp where
  epc : Nat
  pdc : Nat
  edt : List Nat
  deriving DecidableEq, Repr

/-- The bytes contributed by one property in `create_echonet_packet`:
`packet.extend([epc, pdc])` followed by `packet.extend(edt)` only when
`pdc > 0`. -/
def encodeProp (p : EProp) : List Nat :=
  [p.epc, p.pdc] ++ (if p.pdc > 0 then p.edt else [])

/-- Embedding of `create_echonet_packet(tid, eojgc, eojcc, eojci, esv, props)`:
fixed header bytes `0x10 0x81`, big-endian transaction id, the controller's
fixed source identity `0x05 0xFF 0x01`, the destination identity, the service
code, the property count `len(props)`, then the encoded properties. -/
def create_echonet_packet (tid eojgc eojcc eojci esv : Nat)
    (props : List EProp) : List Nat :=
  [0x10, 0x81,
   (tid >>> 8) &&& 0xFF, tid &&& 0xFF,
   0x05, 0xFF, 0x01,
   eojgc, eojcc, eojci,
   esv,
   props.length] ++ props.flatMap encodeProp

/-- Embedding of the property-parsing loop of `parse_echonet_response`
(`for i in range(opc): ...`): `idx` is the absolute read position in `data`,
the second argument the remaining iteration count.  Both `break` conditions
of the source (`idx + 2 > len(data)` and `idx + 2 + pdc > len(data)`) end
the loop with the properties collected so far. -/
def parseProps (data : List Nat) : Nat → Nat → List EProp
  | _, 0 => []
  | idx, n + 1 =>
    if idx + 2 > data.length then []
    else
      let epc := data.getD idx 0
      let pdc := data.getD (idx + 1) 0
      if idx + 2 + pdc > data.length then []
      else ⟨epc, pdc, (data.drop (idx + 2)).take pdc⟩ ::
        parseProps data (idx + 2 + pdc) n

/-- A decoded frame, with the fields of the dictionary returned by
`parse_echonet_response`. -/
structure Frame where
  ehd : Nat
  tid : Nat
  seoj : Nat × Nat × Nat
  deoj : Nat × Nat × Nat
  esv : Nat
  opc : Nat
  props : List EProp
  deriving DecidableEq, Repr

/-- Embedding of `parse_echonet_response(data)`: `None` when fewer than 12
bytes are present, otherwise the header fields read at their absolute
offsets together with the parsed property list. -/
def parse_echonet_response (data : List Nat) : Option Frame :=
  if data.length < 12 then none
  else some
    { ehd := (data.getD 0 0) <<< 8 ||| data.getD 1 0
      tid := (data.getD 2 0) <<< 8 ||| data.getD 3 0
      seoj := (data.getD 4 0, data.getD 5 0, data.getD 6 0)
      deoj := (data.getD 7 0, data.getD 8 0, data.getD 9 0)
      esv := data.getD 10 0
      opc := data.getD 11 0
      props := parseProps data 12 (data.getD 11 0) }

/-- Lower-case hexadecimal digit, as produced by `binascii.hexlify`. -/
def hexChar (n : Nat) : Char :=
  if n < 10 then Char.ofNat (48 + n) else Char.ofNat (87 + n)

/-- Two lower-case hexadecimal digits of one byte. -/
def byteHexLower (b : Nat) : String :=
  String.mk [hexChar (b / 16 % 16), hexChar (b % 16)]

/-- Embedding of `binascii.hexlify(edt).decode()`. -/
def hexlify (bs : List Nat) : String :=
  String.join (bs.map byteHexLower)

/-- Embedding of `int.from_bytes(bs, byteorder='big')`. -/
def fromBytesBE (bs : List Nat) : Nat :=
  bs.foldl (fun a b => a * 256 + b) 0

/-- Embedding of `int.from_bytes(bs, byteorder='big', signed=True)`:
two's-complement reading of the big-endian value. -/
def fromBytesBESigned (bs : List Nat) : Int :=
  let u := fromBytesBE bs
  if u < 2 ^ (8 * bs.length - 1) then (u : Int)
  else (u : Int) - 2 ^ (8 * bs.length)

/-- The `try` block of `format_property_value`.  The one operation in it
that can raise is `edt[0]` on an empty payload (Python `IndexError`,
message "index out of range"); every other branch returns normally.  A
recognized numeric code whose payload is shorter than its required width
falls through to the final `Raw:` return of the source. -/
def format_property_value_try (epc : Nat) (edt : List Nat) :
    Except String String :=
  if epc = EPC_OPERATIONAL_STATUS then
    match edt with
    | [] => Except.error "index out of range"
    | b :: _ => Except.ok (if b = 0x30 then "ON" else "OFF")
  else if epc = EPC_MANUFACTURER_CODE then
    Except.ok ("Manufacturer: " ++ hexlify edt)
  else if epc = EPC_POWER_CONSUMPTION then
    if edt.length ≥ 2 then Except.ok (toString (fromBytesBE edt) ++ " W")
    else Except.ok ("Raw: " ++ hexlify edt)
  else if epc = EPC_CUMULATIVE_POWER then
    if edt.length ≥ 4 then Except.ok (toString (fromBytesBE edt) ++ " kWh")
    else Except.ok ("Raw: " ++ hexlify edt)
  else if epc = EPC_INSTANTANEOUS_POWER then
    if edt.length ≥ 2 then Except.ok (toString (fromBytesBE edt) ++ " W")
    else Except.ok ("Raw: " ++ hexlify edt)
  else if epc = EPC_BATTERY_CHARGE_DISCHARGE then
    if edt.length ≥ 2 then
      let val := fromBytesBESigned edt
      if val ≥ 0 then Except.ok ("Charging: " ++ toString val ++ " W")
      else Except.ok ("Discharging: " ++ toString (-val) ++ " W")
    else Except.ok ("Raw: " ++ hexlify edt)
  else Except.ok ("Raw: " ++ hexlify edt)

/-- Embedding of `format_property_value(epc, edt)`: the `try` block with
its `except` handler, which returns `f"Error formatting: {e}"`. -/
def format_property_value (epc : Nat) (edt : List Nat) : String :=
  match format_property_value_try epc edt with
  | Except.ok s => s
  | Except.error e => "Error formatting: " ++ e

/-- Recursion over the not-yet-consumed bytes, equivalent to `parseProps`
(proved below): at each step the next two bytes are the code and the
declared length, and the declared payload must lie within the input. -/
def parsePropsRem : List Nat → Nat → List EProp
  | _, 0 => []
  | [], _ + 1 => []
  | [_], _ + 1 => []
  | epc :: pdc :: rest, n + 1 =>
    if pdc > rest.length then []
    else ⟨epc, pdc, rest.take pdc⟩ :: parsePropsRem (rest.drop pdc) n

/-- The properties of a frame whose code byte, length byte and full payload
fit inside the given byte budget: the spec's characterization of what
survives truncation. -/
def propsFullyBefore : List EProp → Nat → List EProp
  | [], _ => []
  | p :: ps, budget =>
    if 2 + p.edt.length ≤ budget then
      p :: propsFullyBefore ps (budget - (2 + p.edt.length))
    else []

/-- Upper-case hexadecimal digit, as produced by Python's `%X` format. -/
def hexUpperChar (n : Nat) : Char :=
  if n < 10 then Char.ofNat (48 + n) else Char.ofNat (55 + n)

/-- Hexadecimal digits of `n`, most significant first, with enough fuel to
consume every digit (the fuel only bounds the recursion depth; `n + 1` is
always sufficient since each step divides by 16). -/
def hexUpperDigitsAux : Nat → Nat → List Char
  | 0, _ => []
  | fuel + 1, n =>
    if n < 16 then [hexUpperChar n]
    else hexUpperDigitsAux fuel (n / 16) ++ [hexUpperChar (n % 16)]

/-- Hexadecimal digits of `n`, most significant first. -/
def hexUpperDigits (n : Nat) : List Char :=
  hexUpperDigitsAux (n + 1) n

/-- Python `f"{n:02X}"`: upper-case hexadecimal padded to two digits. -/
def hexUpper2 (n : Nat) : String :=
  String.mk (List.replicate (2 - (hexUpperDigits n).length) '0'
    ++ hexUpperDigits n)

/-- A collected reading `(device_name, property label, formatted value)`,
as appended to `successful_readings`. -/
abbrev Reading := String × String × String

/-- One entry of the `device_types` catalogue. -/
structure DeviceType where
  eojgc : Nat
  eojcc : Nat
  eojci : Nat
  name : String
  deriving DecidableEq, Repr

/-- The fixed catalogue of candidate device identities. -/
def device_types : List DeviceType :=
  [⟨0x02, 0x7D, 0x01, "Storage Battery"⟩,
   ⟨0x02, 0x79, 0x01, "Home Solar Power"⟩,
   ⟨0x02, 0x88, 0x01, "Smart Electric Energy Meter"⟩,
   ⟨0x05, 0xFF, 0x01, "Controller"⟩,
   ⟨0x00, 0x11, 0x01, "Temperature Sensor"⟩]

/-- The fixed catalogue of property groups requested per identity. -/
def property_sets : List (List (Nat × Nat)) :=
  [[(EPC_OPERATIONAL_STATUS, 0), (EPC_INSTALLATION_LOCATION, 0),
    (EPC_MANUFACTURER_CODE, 0)],
   [(EPC_POWER_CONSUMPTION, 0), (EPC_CUMULATIVE_POWER, 0)],
   [(EPC_INSTANTANEOUS_POWER, 0), (EPC_BATTERY_CHARGE_DISCHARGE, 0)]]

/-- A request tuple `(epc, 0)` as the byte sequence the encoder consumes:
code, declared length 0, empty payload. -/
def reqProp (pr : Nat × Nat) : EProp := ⟨pr.1, pr.2, []⟩

/-- The `for prop in parsed['props']` loop of the prober: every property is
formatted, and a Reading is appended exactly when `pdc > 0`. -/
def processProps (dname : String) : List EProp → List Reading → List Reading
  | [], acc => acc
  | p :: rest, acc =>
    processProps dname rest
      (if p.pdc > 0 then
        acc ++ [(dname, "EPC 0x" ++ hexUpper2 p.epc,
          format_property_value p.epc p.edt)]
      else acc)

/-- One (identity × property-group) attempt of the prober: build the
request packet with the clock-derived transaction id (`tids k` is the raw
clock value of the `k`-th attempt, masked to 16 bits as in the source),
send it, and process the properties of a received response that parses.
`resp k packet = none` models a timeout or a transport error for the
`k`-th send, which records nothing. -/
def attemptPair (resp : Nat → List Nat → Option (List Nat))
    (tids : Nat → Nat) (k : Nat) (d : DeviceType) (ps : List (Nat × Nat))
    (acc : List Reading) : List Reading :=
  let tid := tids k &&& 0xFFFF
  let packet := create_echonet_packet tid d.eojgc d.eojcc d.eojci 0x62
    (ps.map reqProp)
  match resp k packet with
  | none => acc
  | some response =>
    match parse_echonet_response response with
    | none => acc
    | some parsed => processProps d.name parsed.props acc

/-- The inner `for prop_set in property_sets` loop, threading the attempt
counter, the trace of attempted pairs and the readings accumulator. -/
def probeSets (resp : Nat → List Nat → Option (List Nat))
    (tids : Nat → Nat) (d : DeviceType) :
    List (List (Nat × Nat)) → Nat →
    List (DeviceType × List (Nat × Nat)) → List Reading →
    Nat × List (DeviceType × List (Nat × Nat)) × List Reading
  | [], k, att, acc => (k, att, acc)
  | ps :: rest, k, att, acc =>
    probeSets resp tids d rest (k + 1) (att ++ [(d, ps)])
      (attemptPair resp tids k d ps acc)

/-- The outer `for ... in device_types` loop. -/
def probeDevices (resp : Nat → List Nat → Option (List Nat))
    (tids : Nat → Nat) :
    List DeviceType → Nat →
    List (DeviceType × List (Nat × Nat)) → List Reading →
    Nat × List (DeviceType × List (Nat × Nat)) × List Reading
  | [], k, att, acc => (k, att, acc)
  | d :: rest, k, att, acc =>
    let r := probeSets resp tids d property_sets k att acc
    probeDevices resp tids rest r.1 r.2.1 r.2.2

/-- Embedding of `probe_echonet_device`: the full sweep over the two fixed
catalogues, returning the ordered trace of attempted pairs, the ordered
readings collected, and the success flag (`True` exactly when
`successful_readings` is non-empty, as in the source's final branch). -/
def probe_echonet_device (resp : Nat → List Nat → Option (List Nat))
    (tids : Nat → Nat) :
    List (DeviceType × List (Nat × Nat)) × List Reading × Bool :=
  let r := probeDevices resp tids device_types 0 [] []
  (r.2.1, r.2.2, !r.2.2.isEmpty)

/-- Embedding of `main`: process exit status 0 on success, 1 otherwise. -/
def main (resp : Nat → List Nat → Option (List Nat)) (tids : Nat → Nat) :
    Nat :=
  if (probe_echonet_device resp tids).2.2 then 0 else 1

/-- The readings one attempt contributes, as the spec characterizes them:
one Reading per decoded property with nonzero payload length, in decoded
property order, and none for a zero-length payload. -/
def readingsOfAttempt (resp : Nat → List Nat → Option (List Nat))
    (tids : Nat → Nat) (k : Nat) (d : DeviceType)
    (ps : List (Nat × Nat)) : List Reading :=
  match resp k (create_echonet_packet (tids k &&& 0xFFFF) d.eojgc d.eojcc
      d.eojci 0x62 (ps.map reqProp)) with
  | none => []
  | some response =>
    match parse_echonet_response response with
    | none => []
    | some parsed =>
      (parsed.props.filter (fun p => p.pdc > 0)).map
        (fun p => (d.name, "EPC 0x" ++ hexUpper2 p.epc,
          format_property_value p.epc p.edt))

/-- The 15 catalogue pairs in attempt order. -/
def catalogue_pairs : List (DeviceType × List (Nat × Nat)) :=
  device_types.flatMap (fun d => property_sets.map (fun ps => (d, ps)))

example : hexUpper2 0x80 = "80" := rfl

example : hexUpper2 0x03 = "03" := rfl

example : catalogue_pairs.length = 15 := rfl

example : format_property_value 0x80 [0x30] = "ON" := rfl

example : format_property_value 0x80 [0x31] = "OFF" := rfl

example : format_property_value 0xD3 [0x00, 0x0A] = "Charging: 10 W" := rfl

example : format_property_value 0xD3 [0xFF, 0xF6] = "Discharging: 10 W" := rfl

example : format_property_value 0xFF [0xAB, 0xCD] = "Raw: abcd" := rfl

example : format_property_value 0x80 [] = "Error formatting: index out of range" := rfl

example :
    parse_echonet_response (create_echonet_packet 7 2 0x7D 1 0x62
      [⟨0x80, 1, [0x30]⟩, ⟨0xD3, 2, [0, 10]⟩]) =
    some ⟨0x1081, 7, (5, 0xFF, 1), (2, 0x7D, 1), 0x62, 2,
      [⟨0x80, 1, [0x30]⟩, ⟨0xD3, 2, [0, 10]⟩]⟩ := by decide

theorem parsePropsRem_short {rem : List Nat} {n : Nat} (h : rem.length < 2) :
    parsePropsRem rem (n + 1) = [] := by
  match rem with
  | [] => rfl
  | [_] => rfl
  | a :: b :: t => simp only [List.length_cons] at h; omega

theorem parseProps_eq_parsePropsRem (data : List Nat) :
    ∀ n idx, parseProps data idx n = parsePropsRem (data.drop idx) n := by
  intro n
  induction n with
  | zero => intro idx; rw [parseProps, parsePropsRem]
  | succ n ih =>
    intro idx
    by_cases h : idx + 2 > data.length
    · rw [parseProps, if_pos h]
      have hr : (data.drop idx).length < 2 := by
        simp only [List.length_drop]; omega
      exact (parsePropsRem_short hr).symm
    · have hle : idx + 2 ≤ data.length := by omega
      have h0 : idx < data.length := by omega
      have h1 : idx + 1 < data.length := by omega
      have hg0 : data.getD idx 0 = data[idx] := by
        simp [List.getD_eq_getElem?_getD, List.getElem?_eq_getElem h0]
      have hg1 : data.getD (idx + 1) 0 = data[idx + 1] := by
        simp [List.getD_eq_getElem?_getD, List.getElem?_eq_getElem h1]
      have hdrop : data.drop idx = data[idx] :: data[idx + 1] :: data.drop (idx + 2) := by
        rw [List.drop_eq_getElem_cons h0, List.drop_eq_getElem_cons h1]
      rw [parseProps, if_neg h, hdrop, parsePropsRem]
      simp only [hg0, hg1]
      by_cases hc : idx + 2 + data[idx + 1] > data.length
      · rw [if_pos hc, if_pos (by simp only [List.length_drop]; omega)]
      · rw [if_neg hc, if_neg (by simp only [List.length_drop]; omega)]
        have htail : (data.drop (idx + 2)).drop data[idx + 1] =
            data.drop (idx + 2 + data[idx + 1]) := by
          rw [List.drop_drop]
        rw [htail, ih]

theorem encodeProp_of_wf {p : EProp} (h : p.pdc = p.edt.length) :
    encodeProp p = p.epc :: p.pdc :: p.edt := by
  unfold encodeProp
  by_cases h0 : p.pdc > 0
  · rw [if_pos h0]; rfl
  · rw [if_neg h0]
    have he : p.edt.length = 0 := by omega
    have hnil : p.edt = [] := List.length_eq_zero.mp he
    simp [hnil]

theorem parsePropsRem_encode (props : List EProp)
    (hwf : ∀ p ∈ props, p.pdc = p.edt.length) :
    parsePropsRem (props.flatMap encodeProp) props.length = props := by
  induction props with
  | nil => simp [parsePropsRem]
  | cons p ps ih =>
    have hp : p.pdc = p.edt.length := hwf p (List.mem_cons_self _ _)
    rw [List.flatMap_cons, encodeProp_of_wf hp]
    show parsePropsRem (p.epc :: p.pdc :: (p.edt ++ ps.flatMap encodeProp))
      (ps.length + 1) = p :: ps
    rw [parsePropsRem,
      if_neg (by simp only [List.length_append]; omega),
      List.take_left' hp.symm, List.drop_left' hp.symm,
      ih (fun q hq => hwf q (List.mem_cons_of_mem _ hq))]

theorem parsePropsRem_encode_take (props : List EProp)
    (hwf : ∀ p ∈ props, p.pdc = p.edt.length) :
    ∀ b, parsePropsRem ((props.flatMap encodeProp).take b) props.length =
      propsFullyBefore props b := by
  induction props with
  | nil => intro b; simp [parsePropsRem, propsFullyBefore]
  | cons p ps ih =>
    intro b
    have hp : p.pdc = p.edt.length := hwf p (List.mem_cons_self _ _)
    have ih' := ih (fun q hq => hwf q (List.mem_cons_of_mem _ hq))
    rw [List.flatMap_cons, encodeProp_of_wf hp]
    match b with
    | 0 =>
      rw [List.take_zero, propsFullyBefore, if_neg (by omega)]
      exact parsePropsRem_short (by simp)
    | 1 =>
      show parsePropsRem [p.epc] (ps.length + 1) = propsFullyBefore (p :: ps) 1
      rw [propsFullyBefore, if_neg (by omega)]
      exact parsePropsRem_short (by simp)
    | Nat.succ (Nat.succ b') =>
      show parsePropsRem
        (p.epc :: p.pdc :: (p.edt ++ ps.flatMap encodeProp).take b')
        (ps.length + 1) = propsFullyBefore (p :: ps) (b' + 2)
      rw [parsePropsRem, propsFullyBefore]
      by_cases hfit : p.edt.length ≤ b'
      · rw [if_neg (by
          simp only [List.length_take, List.length_append]
          omega)]
        rw [if_pos (by omega)]
        have htake : ((p.edt ++ ps.flatMap encodeProp).take b').take p.pdc
            = p.edt := by
          rw [hp, List.take_take, Nat.min_eq_left hfit,
            List.take_left' rfl]
        have hdrop : ((p.edt ++ ps.flatMap encodeProp).take b').drop p.pdc
            = (ps.flatMap encodeProp).take (b' - p.edt.length) := by
          rw [hp, List.drop_take, List.drop_left' rfl]
        have hb : b' + 1 + 1 - (2 + p.edt.length) = b' - p.edt.length := by
          omega
        rw [htake, hdrop, ih', hb]
      · rw [if_pos (by
          simp only [List.length_take, List.length_append]
          omega)]
        rw [if_neg (by omega)]

/-- `x &&& 0xFF` masks to the low byte. -/
theorem and_255_eq_mod (x : Nat) : x &&& 0xFF = x % 256 := by
  have h := Nat.and_pow_two_sub_one_eq_mod x 8
  norm_num at h
  exact h

/-- Recombining a high byte shifted left with a low byte is positional
arithmetic. -/
theorem shiftLeft8_or_eq (a b : Nat) (hb : b < 256) :
    (a <<< 8) ||| b = 256 * a + b := by
  have hb' : b < 2 ^ 8 := by omega
  have h := Nat.mul_add_lt_is_or hb' a
  rw [Nat.shiftLeft_eq, Nat.mul_comm a (2 ^ 8), ← h]

theorem tid_bytes_roundtrip (tid : Nat) (htid : tid < 65536) :
    (((tid >>> 8) &&& 0xFF) <<< 8) ||| (tid &&& 0xFF) = tid := by
  have e2 : (tid >>> 8) &&& 0xFF = tid / 256 := by
    rw [Nat.shiftRight_eq_div_pow, and_255_eq_mod]
    norm_num
    omega
  rw [e2, and_255_eq_mod,
    shiftLeft8_or_eq (tid / 256) (tid % 256) (Nat.mod_lt _ (by norm_num))]
  omega

/-- C1: for every well-formed frame (source identity fixed to the
controller's `0x05 0xFF 0x01`, at most 255 properties, each declared
payload length equal to the actual payload length and at most 255, 16-bit
transaction id), decoding the encoding reconstructs every field: the
transaction id, source and destination identities, service code, property
count and the full ordered property list. -/
theorem create_parse_roundtrip (tid eojgc eojcc eojci esv : Nat)
    (props : List EProp)
    (htid : tid < 65536) (hcount : props.length ≤ 255)
    (hwf : ∀ p ∈ props, p.pdc = p.edt.length ∧ p.pdc ≤ 255) :
    parse_echonet_response
      (create_echonet_packet tid eojgc eojcc eojci esv props) =
    some ⟨0x1081, tid, (0x05, 0xFF, 0x01), (eojgc, eojcc, eojci), esv,
      props.length, props⟩ := by
  have hwf' : ∀ p ∈ props, p.pdc = p.edt.length := fun p hp => (hwf p hp).1
  unfold create_echonet_packet parse_echonet_response
  rw [if_neg (by
    simp only [List.length_append, List.length_cons, List.length_nil]
    omega)]
  refine congrArg some ?_
  simp only [Frame.mk.injEq]
  refine ⟨?_, ?_, rfl, rfl, rfl, rfl, ?_⟩
  · show ((0x10 : Nat) <<< 8) ||| 0x81 = 0x1081
    rfl
  · exact tid_bytes_roundtrip tid htid
  · rw [parseProps_eq_parsePropsRem]
    exact parsePropsRem_encode props hwf'

/-- Witness for the round-trip theorem at a concrete two-property frame. -/
theorem create_parse_roundtrip_witness :
    2 < 65536 ∧
    ([(⟨0x80, 1, [0x30]⟩ : EProp), ⟨0xD3, 2, [0, 10]⟩].length ≤ 255) ∧
    parse_echonet_response (create_echonet_packet 2 2 0x7D 1 0x62
        [⟨0x80, 1, [0x30]⟩, ⟨0xD3, 2, [0, 10]⟩]) =
      some ⟨0x1081, 2, (0x05, 0xFF, 0x01), (2, 0x7D, 1), 0x62, 2,
        [⟨0x80, 1, [0x30]⟩, ⟨0xD3, 2, [0, 10]⟩]⟩ :=
  ⟨by decide, by decide,
    create_parse_roundtrip 2 2 0x7D 1 0x62 _ (by decide) (by decide)
      (by decide)⟩

/-- C2: truncating a well-formed encoded frame at any boundary of at least
12 bytes still decodes (no error), and the decoded property list is exactly
the properties whose code byte, length byte and full declared payload lie
before the truncation point; the first incomplete property and everything
after it are dropped. -/
theorem parse_truncated_encode (tid eojgc eojcc eojci esv : Nat)
    (props : List EProp) (k : Nat)
    (hcount : props.length ≤ 255)
    (hwf : ∀ p ∈ props, p.pdc = p.edt.length ∧ p.pdc ≤ 255)
    (hk : 12 ≤ k) :
    ∃ f, parse_echonet_response
        ((create_echonet_packet tid eojgc eojcc eojci esv props).take k)
      = some f ∧ f.props = propsFullyBefore props (k - 12) := by
  have hwf' : ∀ p ∈ props, p.pdc = p.edt.length := fun p hp => (hwf p hp).1
  have htake : (create_echonet_packet tid eojgc eojcc eojci esv props).take k
      = [0x10, 0x81, (tid >>> 8) &&& 0xFF, tid &&& 0xFF, 0x05, 0xFF, 0x01,
         eojgc, eojcc, eojci, esv, props.length]
        ++ (props.flatMap encodeProp).take (k - 12) := by
    unfold create_echonet_packet
    rw [List.take_append_eq_append_take, List.take_of_length_le (by exact hk)]
    simp
  rw [htake]
  unfold parse_echonet_response
  rw [if_neg (by
    simp only [List.length_append, List.length_cons, List.length_nil]
    omega)]
  refine ⟨_, rfl, ?_⟩
  rw [parseProps_eq_parsePropsRem]
  exact parsePropsRem_encode_take props hwf' (k - 12)

/-- Witness for the truncation theorem: cutting at byte 15 keeps the first
property (3 encoded bytes) and drops the second. -/
theorem parse_truncated_encode_witness :
    ([(⟨0x80, 1, [0x30]⟩ : EProp), ⟨0xD3, 2, [0, 10]⟩].length ≤ 255) ∧
    12 ≤ 15 ∧
    ∃ f, parse_echonet_response
        ((create_echonet_packet 2 2 0x7D 1 0x62
          [⟨0x80, 1, [0x30]⟩, ⟨0xD3, 2, [0, 10]⟩]).take 15)
      = some f ∧
      f.props = propsFullyBefore [⟨0x80, 1, [0x30]⟩, ⟨0xD3, 2, [0, 10]⟩]
        (15 - 12) :=
  ⟨by decide, by decide,
    parse_truncated_encode 2 2 0x7D 1 0x62 _ 15 (by decide) (by decide)
      (by decide)⟩

/-- C3: any input shorter than 12 bytes decodes to no frame at all, and any
input of at least 12 bytes decodes to some frame. -/
theorem parse_length_contract (data : List Nat) :
    (data.length < 12 → parse_echonet_response data = none) ∧
    (12 ≤ data.length → ∃ f, parse_echonet_response data = some f) := by
  constructor
  · intro h
    unfold parse_echonet_response
    rw [if_pos h]
  · intro h
    exact ⟨_, by unfold parse_echonet_response; rw [if_neg (by omega)]⟩

/-- Witness for the length contract at an 11-byte and a 12-byte input. -/
theorem parse_length_contract_witness :
    parse_echonet_response [1, 2, 3, 4, 5, 6, 7, 8, 9, 10, 11] = none ∧
    ∃ f, parse_echonet_response [1, 2, 3, 4, 5, 6, 7, 8, 9, 10, 11, 0]
      = some f :=
  ⟨(parse_length_contract [1, 2, 3, 4, 5, 6, 7, 8, 9, 10, 11]).1 (by decide),
    (parse_length_contract [1, 2, 3, 4, 5, 6, 7, 8, 9, 10, 11, 0]).2
      (by decide)⟩

/-- C9: decoding any input of at least 12 bytes keeps the declared
property-count byte (offset 11) verbatim as the `opc` field, independently
of how many properties were actually parsed; in particular a header-only
input declaring 5 properties yields `opc = 5` with an empty property
list. -/
theorem parse_preserves_declared_opc (data : List Nat)
    (h : 12 ≤ data.length) :
    (∃ f, parse_echonet_response data = some f ∧ f.opc = data.getD 11 0 ∧
      f.props = parseProps data 12 (data.getD 11 0)) ∧
    parse_echonet_response [0x10, 0x81, 0, 0, 0, 0, 0, 0, 0, 0, 0x72, 5] =
      some ⟨0x1081, 0, (0, 0, 0), (0, 0, 0), 0x72, 5, []⟩ := by
  constructor
  · unfold parse_echonet_response
    rw [if_neg (by omega)]
    exact ⟨_, rfl, rfl, rfl⟩
  · decide

/-- Witness for the declared-count theorem at the header-only input. -/
theorem parse_preserves_declared_opc_witness :
    (∃ f, parse_echonet_response [0x10, 0x81, 0, 0, 0, 0, 0, 0, 0, 0, 0x72, 5]
        = some f ∧
      f.opc = [0x10, 0x81, 0, 0, 0, 0, 0, 0, 0, 0, 0x72, 5].getD 11 0 ∧
      f.props = parseProps [0x10, 0x81, 0, 0, 0, 0, 0, 0, 0, 0, 0x72, 5] 12
        ([0x10, 0x81, 0, 0, 0, 0, 0, 0, 0, 0, 0x72, 5].getD 11 0)) ∧
    parse_echonet_response [0x10, 0x81, 0, 0, 0, 0, 0, 0, 0, 0, 0x72, 5] =
      some ⟨0x1081, 0, (0, 0, 0), (0, 0, 0), 0x72, 5, []⟩ :=
  parse_preserves_declared_opc [0x10, 0x81, 0, 0, 0, 0, 0, 0, 0, 0, 0x72, 5]
    (by decide)

/-- C10: decoding never validates the 2-byte format marker — any input of
at least 12 bytes decodes, the `ehd` field being exactly the first two
bytes recombined; the encoder always emits marker bytes `0x10 0x81`; and an
input whose marker differs (here `0xAB 0xCD`) is still accepted. -/
theorem parse_ignores_format_marker (data : List Nat) (h : 12 ≤ data.length)
    (tid eojgc eojcc eojci esv : Nat) (props : List EProp) :
    (∃ f, parse_echonet_response data = some f ∧
      f.ehd = (data.getD 0 0) <<< 8 ||| data.getD 1 0) ∧
    (create_echonet_packet tid eojgc eojcc eojci esv props).take 2 =
      [0x10, 0x81] ∧
    (∃ f, parse_echonet_response
        [0xAB, 0xCD, 0, 0, 0, 0, 0, 0, 0, 0, 0x72, 0] = some f ∧
      f.ehd = 0xABCD ∧ f.ehd ≠ 0x1081) := by
  refine ⟨?_, rfl, ?_⟩
  · unfold parse_echonet_response
    rw [if_neg (by omega)]
    exact ⟨_, rfl, rfl⟩
  · exact ⟨⟨0xABCD, 0, (0, 0, 0), (0, 0, 0), 0x72, 0, []⟩, by decide,
      by decide, by decide⟩

/-- Witness for the marker-indifference theorem. -/
theorem parse_ignores_format_marker_witness :
    (∃ f, parse_echonet_response
        [0xAB, 0xCD, 0, 0, 0, 0, 0, 0, 0, 0, 0x72, 0] = some f ∧
      f.ehd = ([0xAB, 0xCD, 0, 0, 0, 0, 0, 0, 0, 0, 0x72, 0].getD 0 0) <<< 8
        ||| [0xAB, 0xCD, 0, 0, 0, 0, 0, 0, 0, 0, 0x72, 0].getD 1 0) ∧
    (create_echonet_packet 0 0 0 0 0x62 []).take 2 = [0x10, 0x81] ∧
    (∃ f, parse_echonet_response
        [0xAB, 0xCD, 0, 0, 0, 0, 0, 0, 0, 0, 0x72, 0] = some f ∧
      f.ehd = 0xABCD ∧ f.ehd ≠ 0x1081) :=
  parse_ignores_format_marker [0xAB, 0xCD, 0, 0, 0, 0, 0, 0, 0, 0, 0x72, 0]
    (by decide) 0 0 0 0 0x62 []

/-- C5: the concrete interpreter outputs required by the spec, together
with the signed big-endian reading of the charge/discharge payload:
`fromBytesBESigned` on two bytes is the two's-complement value, and a
negative value is always rendered as discharging of its absolute value. -/
theorem format_property_value_values (b1 b2 : Nat)
    (hb1 : b1 < 256) (hb2 : b2 < 256) :
    format_property_value 0x80 [0x30] = "ON" ∧
    format_property_value 0x80 [0x31] = "OFF" ∧
    format_property_value 0xD3 [0x00, 0x0A] = "Charging: 10 W" ∧
    format_property_value 0xD3 [0xFF, 0xF6] = "Discharging: 10 W" ∧
    fromBytesBESigned [b1, b2] =
      (256 * b1 + b2 : Int) -
        (if 256 * b1 + b2 < 32768 then 0 else 65536) ∧
    (∀ edt : List Nat, 2 ≤ edt.length → fromBytesBESigned edt < 0 →
      format_property_value 0xD3 edt =
        "Discharging: " ++ toString (-fromBytesBESigned edt) ++ " W") := by
  refine ⟨rfl, rfl, rfl, rfl, ?_, ?_⟩
  · unfold fromBytesBESigned fromBytesBE
    simp only [List.foldl, List.length_cons, List.length_nil]
    norm_num
    split_ifs <;> push_cast <;> omega
  · intro edt hlen hneg
    unfold format_property_value format_property_value_try
      EPC_OPERATIONAL_STATUS EPC_MANUFACTURER_CODE EPC_POWER_CONSUMPTION
      EPC_CUMULATIVE_POWER EPC_INSTANTANEOUS_POWER EPC_BATTERY_CHARGE_DISCHARGE
    norm_num
    rw [if_pos hlen, if_neg (by omega)]

/-- Witness for the interpreter-values theorem at bytes `0xFF 0xF6`. -/
theorem format_property_value_values_witness :
    format_property_value 0x80 [0x30] = "ON" ∧
    format_property_value 0x80 [0x31] = "OFF" ∧
    format_property_value 0xD3 [0x00, 0x0A] = "Charging: 10 W" ∧
    format_property_value 0xD3 [0xFF, 0xF6] = "Discharging: 10 W" ∧
    fromBytesBESigned [0xFF, 0xF6] =
      (256 * 0xFF + 0xF6 : Int) -
        (if 256 * 0xFF + 0xF6 < 32768 then 0 else 65536) ∧
    (∀ edt : List Nat, 2 ≤ edt.length → fromBytesBESigned edt < 0 →
      format_property_value 0xD3 edt =
        "Discharging: " ++ toString (-fromBytesBESigned edt) ++ " W") :=
  format_property_value_values 0xFF 0xF6 (by decide) (by decide)

/-- C6: an unrecognized property code, or a recognized numeric code whose
payload is shorter than its required width (2 bytes for the unsigned and
signed power codes, 4 for cumulative power), is rendered as the raw
hexadecimal dump labelled "Raw"; in particular code `0xFF` with payload
`0xAB 0xCD` gives "Raw: abcd". -/
theorem format_property_value_raw (epc : Nat) (edt : List Nat)
    (h : epc ∉ ([0x80, 0x8A, 0x84, 0x85, 0xE0, 0xD3] : List Nat) ∨
      (epc = 0x84 ∧ edt.length < 2) ∨ (epc = 0x85 ∧ edt.length < 4) ∨
      (epc = 0xE0 ∧ edt.length < 2) ∨ (epc = 0xD3 ∧ edt.length < 2)) :
    format_property_value epc edt = "Raw: " ++ hexlify edt ∧
    format_property_value 0xFF [0xAB, 0xCD] = "Raw: abcd" := by
  refine ⟨?_, rfl⟩
  unfold format_property_value format_property_value_try
    EPC_OPERATIONAL_STATUS EPC_MANUFACTURER_CODE EPC_POWER_CONSUMPTION
    EPC_CUMULATIVE_POWER EPC_INSTANTANEOUS_POWER EPC_BATTERY_CHARGE_DISCHARGE
  rcases h with hnot | ⟨he, hl⟩ | ⟨he, hl⟩ | ⟨he, hl⟩ | ⟨he, hl⟩
  · simp only [List.mem_cons, List.not_mem_nil, or_false] at hnot
    push_neg at hnot
    obtain ⟨h1, h2, h3, h4, h5, h6⟩ := hnot
    rw [if_neg h1, if_neg h2, if_neg h3, if_neg h4, if_neg h5, if_neg h6]
  · subst he
    norm_num
    rw [if_neg (by omega)]
  · subst he
    norm_num
    rw [if_neg (by omega)]
  · subst he
    norm_num
    rw [if_neg (by omega)]
  · subst he
    norm_num
    rw [if_neg (by omega)]

/-- Witness for the raw-dump theorem at the unrecognized code `0xFF`. -/
theorem format_property_value_raw_witness :
    format_property_value 0xFF [0xAB, 0xCD] = "Raw: " ++ hexlify [0xAB, 0xCD] ∧
    format_property_value 0xFF [0xAB, 0xCD] = "Raw: abcd" :=
  format_property_value_raw 0xFF [0xAB, 0xCD] (Or.inl (by decide))

/-- C7: the interpreter is total: the only failing computation inside its
`try` block is the operational-status branch on an empty payload, and the
handler turns any failure into an "Error formatting" string, while a
successful computation is returned unchanged — no exception ever reaches
the caller. -/
theorem format_property_value_total (epc : Nat) (edt : List Nat) :
    ((∃ e, format_property_value_try epc edt = Except.error e) ↔
      (epc = 0x80 ∧ edt = [])) ∧
    (∀ e, format_property_value_try epc edt = Except.error e →
      format_property_value epc edt = "Error formatting: " ++ e) ∧
    (∀ s, format_property_value_try epc edt = Except.ok s →
      format_property_value epc edt = s) := by
  refine ⟨⟨?_, ?_⟩, ?_, ?_⟩
  · rintro ⟨e, he⟩
    unfold format_property_value_try EPC_OPERATIONAL_STATUS
      EPC_MANUFACTURER_CODE EPC_POWER_CONSUMPTION EPC_CUMULATIVE_POWER
      EPC_INSTANTANEOUS_POWER EPC_BATTERY_CHARGE_DISCHARGE at he
    by_cases h80 : epc = 0x80
    · rw [if_pos h80] at he
      cases edt with
      | nil => exact ⟨h80, rfl⟩
      | cons b t => simp at he
    · rw [if_neg h80] at he
      split_ifs at he <;> simp_all <;> split_ifs at he <;> simp_all
  · rintro ⟨h1, h2⟩
    subst h1; subst h2
    exact ⟨"index out of range", rfl⟩
  · intro e he
    unfold format_property_value
    rw [he]
  · intro s hs
    unfold format_property_value
    rw [hs]

/-- Witness for the totality theorem at the failing input. -/
theorem format_property_value_total_witness :
    ((∃ e, format_property_value_try 0x80 [] = Except.error e) ↔
      ((0x80 : Nat) = 0x80 ∧ ([] : List Nat) = [])) ∧
    (∀ e, format_property_value_try 0x80 [] = Except.error e →
      format_property_value 0x80 [] = "Error formatting: " ++ e) ∧
    (∀ s, format_property_value_try 0x80 [] = Except.ok s →
      format_property_value 0x80 [] = s) :=
  format_property_value_total 0x80 []

theorem processProps_eq (dname : String) (props : List EProp)
    (acc : List Reading) :
    processProps dname props acc =
      acc ++ (props.filter (fun p => p.pdc > 0)).map
        (fun p => (dname, "EPC 0x" ++ hexUpper2 p.epc,
          format_property_value p.epc p.edt)) := by
  induction props generalizing acc with
  | nil => simp [processProps]
  | cons p rest ih =>
    rw [processProps, ih]
    by_cases h : p.pdc > 0
    · rw [if_pos h]
      simp [List.filter_cons, h]
    · rw [if_neg h]
      simp [List.filter_cons, h]

theorem attemptPair_eq (resp : Nat → List Nat → Option (List Nat))
    (tids : Nat → Nat) (k : Nat) (d : DeviceType) (ps : List (Nat × Nat))
    (acc : List Reading) :
    attemptPair resp tids k d ps acc =
      acc ++ readingsOfAttempt resp tids k d ps := by
  unfold attemptPair readingsOfAttempt
  cases hr : resp k (create_echonet_packet (tids k &&& 0xFFFF) d.eojgc
      d.eojcc d.eojci 0x62 (ps.map reqProp)) with
  | none => simp [hr]
  | some response =>
    cases hp : parse_echonet_response response with
    | none => simp [hr, hp]
    | some parsed => simp [hr, hp, processProps_eq]

/-- C4: for every behaviour of the network (any response or timeout for
each attempt), the prober attempts exactly the 15 catalogue pairs, each
once, in catalogue order, and its result sequence is exactly the
concatenation, in attempt order, of one Reading per decoded response
property with nonzero payload length (in decoded property order), with no
Reading for a zero-length payload. -/
theorem probe_sweep_characterization
    (resp : Nat → List Nat → Option (List Nat)) (tids : Nat → Nat) :
    (probe_echonet_device resp tids).1 = catalogue_pairs ∧
    (probe_echonet_device resp tids).2.1 =
      catalogue_pairs.enum.flatMap
        (fun kp => readingsOfAttempt resp tids kp.1 kp.2.1 kp.2.2) := by
  constructor <;>
    simp [probe_echonet_device, probeDevices, probeSets, device_types,
      property_sets, catalogue_pairs, attemptPair_eq, List.enum,
      List.enumFrom]

/-- C8: the prober reports success exactly when at least one Reading was
collected, and the caller's exit status is 0 exactly in that case and
non-zero exactly when no Reading was collected. -/
theorem probe_exit_contract
    (resp : Nat → List Nat → Option (List Nat)) (tids : Nat → Nat) :
    ((probe_echonet_device resp tids).2.2 = true ↔
      (probe_echonet_device resp tids).2.1 ≠ []) ∧
    (main resp tids = 0 ↔ (probe_echonet_device resp tids).2.2 = true) ∧
    (main resp tids ≠ 0 ↔ (probe_echonet_device resp tids).2.1 = []) := by
  have hsucc : (probe_echonet_device resp tids).2.2
      = !(probe_echonet_device resp tids).2.1.isEmpty := rfl
  have h1 : (probe_echonet_device resp tids).2.2 = true ↔
      (probe_echonet_device resp tids).2.1 ≠ [] := by
    rw [hsucc]; simp
  have h2 : main resp tids = 0 ↔
      (probe_echonet_device resp tids).2.2 = true := by
    unfold main
    split_ifs with h <;> simp [h]
  refine ⟨h1, h2, ?_⟩
  rw [Ne, h2, h1]
  exact not_not

end Echonet
